import Mathlib

/-!
Verification of the simulation core of `bevy-snake` (`src/main.rs`).

The game systems are shallowly embedded as pure Lean functions.  Coordinates
are `f32` in the source; every coordinate the game produces is a small exact
multiple of the cell size (10.0) or a viewport half-extent, values on which
`f32` arithmetic (addition, multiplication by 10, division by 2, comparison)
is exact, so `ℚ` models them faithfully.  Machine-integer behaviour that the
claims touch (`i32::saturating_sub`, `as usize` casts, `usize` wrap) is kept
explicit via `Int`/`Nat` with the relevant two-complement arithmetic.
A `none` result models a Rust panic (out-of-bounds index / failed `unwrap`).
-/

namespace BevySnake

/-- A `Transform` translation restricted to the plane (`translation.x/y`). -/
@[ext]
structure Pos where
  x : ℚ
  y : ℚ
deriving DecidableEq, Repr

/-- Constant `SEGMENT_SIZE: f32 = 10.0` (main.rs:143). -/
def SEGMENT_SIZE : ℚ := 10

/-- Enum `Direction { North, East, West, South }` (main.rs:97-103). -/
inductive Direction where
  | north
  | east
  | west
  | south
deriving DecidableEq, Repr

/-- Method `Direction::to_x` (main.rs:109-116). -/
def Direction.to_x : Direction → ℚ
  | .north => 0
  | .east => 1
  | .west => -1
  | .south => 0

/-- Method `Direction::to_y` (main.rs:117-124). -/
def Direction.to_y : Direction → ℚ
  | .north => 1
  | .east => 0
  | .west => 0
  | .south => -1

/-- The 180-degree reverse of a heading; used only to state the
no-self-reversal property, it has no counterpart in the source. -/
def Direction.reverse : Direction → Direction
  | .north => .south
  | .east => .west
  | .west => .east
  | .south => .north

/-- Rust `i32::saturating_sub(d, 1)`: saturates at `i32::MIN = -2^31`,
not at 0 (the argument is an `i32`, main.rs:519). -/
def i32SatSub1 (n : Int) : Int := max (n - 1) (-2147483648)

/-- Rust `as usize` cast of an `i32` value on a 64-bit target:
two-complement reinterpretation, so `-1` becomes `2^64 - 1`. -/
def usizeOfI32 (n : Int) : Nat := (n % 18446744073709551616).toNat

/-- One controlled snake: the `Segments` `VecDeque<Entity>` paired with the
`Transform` translation of each entity, the `Length` target (an `i32`), and the
`Direction`.  List index 0 is the deque front (the tail); the last element is
the back (the head).  Every segment entity owns a `Transform` by construction
(`Segment::new`), so positions are stored inline with the entity ids. -/
structure Snake where
  segments : List (Nat × Pos)
  desiredLen : Int
  dir : Direction
deriving DecidableEq, Repr

/-- The new-head coordinate `head + dir·SEGMENT_SIZE`
(main.rs:523-526 and 531-532). -/
def nextPos (p : Pos) (d : Direction) : Pos :=
  ⟨p.x + d.to_x * SEGMENT_SIZE, p.y + d.to_y * SEGMENT_SIZE⟩

/-- One firing of `move_snake` for one chain (main.rs:516-543).  `fresh` is
the entity id `commands.spawn` hands out in the growth branch.  Branch 1
(`len.0 as usize <= segments.0.len()`): read the head at index
`len.0.saturating_sub(1) as usize` (a panic — `none` — if out of bounds),
pop the front (tail) entity, reposition it to `head + dir·10`, push it at
the back.  Branch 2: read the head at index `segments.0.len() - 1` (`usize`
arithmetic; on an empty deque this is out of bounds and panics, modelled by
`getLast? = none`), spawn a brand-new segment at `head + dir·10` and push it
at the back. -/
def moveSnakeTick (s : Snake) (fresh : Nat) : Option Snake :=
  if usizeOfI32 s.desiredLen ≤ s.segments.length then
    match s.segments.get? (usizeOfI32 (i32SatSub1 s.desiredLen)) with
    | none => none
    | some hseg =>
      match s.segments with
      | [] => none
      | t :: rest =>
        some { s with segments := rest ++ [(t.1, nextPos hseg.2 s.dir)] }
  else
    match s.segments.getLast? with
    | none => none
    | some hseg =>
      some { s with segments := s.segments ++ [(fresh, nextPos hseg.2 s.dir)] }

/-- The head index computed identically in `food_collision_check`
(main.rs:662-666), `wall_collision_check` (main.rs:705-709) and
`self_collision_check` (main.rs:728-732):
`if len.0 as usize <= segments.0.len() { len.0.saturating_sub(1) as usize }
else { segments.0.len() - 1 }`.  (`Nat` subtraction gives `0 - 1 = 0` where
Rust `usize` wraps to `2^64 - 1`; the else branch reaches `l = 0` only with
`usizeOfI32 d > 0` and then both indices read out of bounds of the empty
deque, i.e. both model the same panic.) -/
def head_idx (d : Int) (l : Nat) : Nat :=
  if usizeOfI32 d ≤ l then usizeOfI32 (i32SatSub1 d) else l - 1

/-- Head-segment read shared by the three collision detectors:
`segment_query.get(segments.0[head_idx]).unwrap()` — `none` models the
out-of-bounds panic. -/
def headOf? (s : Snake) : Option Pos :=
  (s.segments.get? (head_idx s.desiredLen s.segments.length)).map Prod.snd

/-- Head index as §4.1 of the spec words it: `min(desired_length,
chain_length) - 1` saturating at 0.  Declared only to be compared with
`head_idx`; `Int.toNat` provides the saturation at 0. -/
def specHeadIdx (d : Int) (l : Nat) : Nat := (min d (l : Int) - 1).toNat

/-- The boundary test of `wall_collision_check` (main.rs:711-715):
strict comparisons against the viewport half-extents. -/
def wallHit (width height : ℚ) (p : Pos) : Bool :=
  decide (p.x > width / 2) || decide (p.x < -(width / 2)) ||
  decide (p.y > height / 2) || decide (p.y < -(height / 2))

/-- One pass of `wall_collision_check` over one chain (main.rs:694-719):
`some true` means a `GameOverEvent` is sent, `none` models the head-read
panic. -/
def wall_collision_check (width height : ℚ) (s : Snake) : Option Bool :=
  (headOf? s).map (wallHit width height)

/-- One pass of `self_collision_check` over one chain (main.rs:721-746):
the loop enumerates the deque, skips the head index, and sends a
`GameOverEvent` on any exact coordinate match; `some true` means at least
one event is sent. -/
def self_collision_check (s : Snake) : Option Bool :=
  match s.segments.get? (head_idx s.desiredLen s.segments.length) with
  | none => none
  | some hseg =>
    some (s.segments.enum.any fun q =>
      decide (q.1 ≠ head_idx s.desiredLen s.segments.length) &&
      decide (q.2.2 = hseg.2))

/-- One pass of `food_collision_check` over one chain (main.rs:654-677):
returns the ids of the food entities despawned (those whose position exactly
equals the head position); one `FoodCollisionEvent` is sent per despawned food. -/
def food_collision_check (foods : List (Nat × Pos)) (s : Snake) :
    Option (List Nat) :=
  (headOf? s).map fun hp =>
    (foods.filter fun f => decide (f.2.x = hp.x) && decide (f.2.y = hp.y)).map
      Prod.fst

/-- Rust `i32` wrap-around addition result (release mode) for `l + 10`
in `grow`. -/
def wrap32 (n : Int) : Int := (n + 2147483648) % 4294967296 - 2147483648

/-- One frame of `grow` (main.rs:679-692): `events` is the number of queued
`FoodCollisionEvent`s; `food_collision_reader.read().next().is_some()` is
true exactly when the queue is non-empty, and then every player-controlled
`Length` gets `+10` (i32) applied once, regardless of the queue length. -/
def grow (events : Nat) (lens : List Int) : List Int :=
  if events = 0 then lens else lens.map fun l => wrap32 (l + 10)

/-- The four arrow key `just_pressed` flags for one frame. -/
structure ArrowKeys where
  left : Bool
  right : Bool
  up : Bool
  down : Bool
deriving DecidableEq, Repr

/-- One frame of `input_direction` for one chain (main.rs:546-561):
an if/else-if chain in the order Left, Right, Up, Down, each guarded by
the pre-state direction not being the opposite of the key direction. -/
def input_direction (keys : ArrowKeys) (dir : Direction) : Direction :=
  if keys.left && !(dir == Direction.east) then Direction.west
  else if keys.right && !(dir == Direction.west) then Direction.east
  else if keys.up && !(dir == Direction.south) then Direction.north
  else if keys.down && !(dir == Direction.north) then Direction.south
  else dir

/-- The key set pressing exactly the one arrow key whose direction is `d`
(ArrowLeft for West, ArrowRight for East, ArrowUp for North, ArrowDown for
South); used to state the single-key part of the no-reversal property. -/
def keyFor : Direction → ArrowKeys
  | .west => ⟨true, false, false, false⟩
  | .east => ⟨false, true, false, false⟩
  | .north => ⟨false, false, true, false⟩
  | .south => ⟨false, false, false, true⟩

/-- Kind tag for a positioned entity, as relevant to the `spawn_food` occupancy
scan: the query of the scan, `Query<&Transform>` (main.rs:577) matches every entity
with a `Transform` — snake segments, live food items, the camera — not just
body segments. -/
inductive EntityKind where
  | segment
  | food
  | camera
  | other
deriving DecidableEq, Repr

/-- An entity holding a `Transform`. -/
structure WorldEnt where
  kind : EntityKind
  pos : Pos
deriving DecidableEq, Repr

/-- One firing of `spawn_food` (main.rs:580-638) after the random cell
`(x, y)` has been sampled and quantized: scan every positioned entity
(main.rs:596-601); on any exact coordinate match `return` (no food spawned,
no resampling this tick); otherwise spawn exactly one food entity at
`(x, y)`.  The result is the positioned-entity list of the world after the tick. -/
def spawn_food (world : List WorldEnt) (x y : ℚ) : List WorldEnt :=
  if world.any fun e => decide (e.pos.x = x) && decide (e.pos.y = y) then
    world
  else
    world ++ [⟨EntityKind.food, ⟨x, y⟩⟩]

/-- Positions of the live food entities of a world. -/
def foodPositions (w : List WorldEnt) : List Pos :=
  (w.filter fun e => decide (e.kind = EntityKind.food)).map WorldEnt.pos

/-- Fixed-length example chain for witnesses: one segment at the origin,
desired length 1, heading north. -/
def exSnake1 : Snake := ⟨[(0, ⟨0, 0⟩)], 1, Direction.north⟩

/-- Growing example chain for witnesses: one segment at the origin, desired
length 10 (the initial `Length(10)` of `SnakeBundle::new`), heading north. -/
def exSnake2 : Snake := ⟨[(0, ⟨0, 0⟩)], 10, Direction.north⟩

/-- An L-shaped chain of length 3 at its desired length, heading north:
tail at the origin, a bend, head at (10, 10). -/
def bentSnake : Snake :=
  ⟨[(0, ⟨0, 0⟩), (1, ⟨10, 0⟩), (2, ⟨10, 10⟩)], 3, Direction.north⟩

lemma usizeOfI32_of_nonneg {d : Int} (h0 : 0 ≤ d)
    (h1 : d < 18446744073709551616) : usizeOfI32 d = d.toNat := by
  unfold usizeOfI32
  rw [Int.emod_eq_of_lt h0 h1]

lemma i32SatSub1_of_pos {d : Int} (h : 1 ≤ d) : i32SatSub1 d = d - 1 := by
  unfold i32SatSub1
  rw [max_eq_left]
  omega

lemma head_read_idx {d : Int} (h1 : 1 ≤ d) (h2 : d < 2147483648) :
    usizeOfI32 (i32SatSub1 d) = (d - 1).toNat := by
  rw [i32SatSub1_of_pos h1, usizeOfI32_of_nonneg (by omega) (by omega)]

lemma get?_of_lt {α : Type} {l : List α} {n : Nat} (h : n < l.length) :
    ∃ a, l.get? n = some a := by
  cases hg : l.get? n with
  | none => exact absurd (List.get?_eq_none.mp hg) (by omega)
  | some v => exact ⟨v, rfl⟩

/-- C1: on a move tick for a chain whose current length is at least its
desired length (which is ≥ 1 in every reachable state, the i32 `Length`
starting at 10 and only growing), `move_snake` reads the head at index
`desired - 1`, pops the front (tail) element, repositions exactly that
element to head + direction·10, and pushes it at the back: the new head
position is old head + dir·SEGMENT_SIZE, the chain length is unchanged,
and the entity ids are a permutation of the old ones — no new segment is
allocated. -/
theorem moveSnake_fixed_length (s : Snake) (fresh : Nat)
    (hd1 : 1 ≤ s.desiredLen) (hd2 : s.desiredLen < 2147483648)
    (hdl : s.desiredLen ≤ (s.segments.length : Int)) :
    ∃ t rest hseg,
      s.segments = t :: rest ∧
      s.segments.get? (s.desiredLen - 1).toNat = some hseg ∧
      moveSnakeTick s fresh =
        some ⟨rest ++ [(t.1, nextPos hseg.2 s.dir)], s.desiredLen, s.dir⟩ ∧
      (rest ++ [(t.1, nextPos hseg.2 s.dir)]).length = s.segments.length ∧
      ((rest ++ [(t.1, nextPos hseg.2 s.dir)]).map Prod.fst).Perm
        ((t :: rest).map Prod.fst) := by
  obtain ⟨t, rest, hseg_eq⟩ : ∃ t rest, s.segments = t :: rest := by
    cases hs : s.segments with
    | nil =>
      rw [hs] at hdl
      simp at hdl
      omega
    | cons a l => exact ⟨a, l, rfl⟩
  have hlen : (s.desiredLen - 1).toNat < s.segments.length := by omega
  obtain ⟨hseg, hget⟩ := get?_of_lt hlen
  have hcond : usizeOfI32 s.desiredLen ≤ s.segments.length := by
    rw [usizeOfI32_of_nonneg (by omega) (by omega)]
    omega
  refine ⟨t, rest, hseg, hseg_eq, hget, ?_, by simp [hseg_eq], ?_⟩
  · unfold moveSnakeTick
    rw [if_pos hcond, head_read_idx hd1 hd2, hget, hseg_eq]
  · simp only [List.map_append, List.map_cons, List.map_nil]
    exact List.perm_append_singleton _ _

/-- C1 witness: the fixed-length branch evaluated on a concrete one-segment
chain at its desired length. -/
theorem moveSnake_fixed_length_witness :
    ∃ t rest hseg,
      exSnake1.segments = t :: rest ∧
      exSnake1.segments.get? (exSnake1.desiredLen - 1).toNat = some hseg ∧
      moveSnakeTick exSnake1 5 =
        some ⟨rest ++ [(t.1, nextPos hseg.2 exSnake1.dir)], exSnake1.desiredLen,
          exSnake1.dir⟩ ∧
      (rest ++ [(t.1, nextPos hseg.2 exSnake1.dir)]).length =
        exSnake1.segments.length ∧
      ((rest ++ [(t.1, nextPos hseg.2 exSnake1.dir)]).map Prod.fst).Perm
        ((t :: rest).map Prod.fst) :=
  moveSnake_fixed_length exSnake1 5 (by decide) (by decide) (by decide)

/-- C2: on a move tick for a chain strictly shorter than its desired length,
`move_snake` appends exactly one newly allocated body part (the fresh entity
id) at old head + direction·10, removes nothing, and leaves every
pre-existing element — id and position — unchanged, so the length grows by
exactly 1. -/
theorem moveSnake_growth (s : Snake) (fresh : Nat)
    (hd2 : s.desiredLen < 2147483648)
    (hl1 : 1 ≤ s.segments.length)
    (hld : (s.segments.length : Int) < s.desiredLen)
    (hfresh : fresh ∉ s.segments.map Prod.fst) :
    ∃ hseg,
      s.segments.getLast? = some hseg ∧
      moveSnakeTick s fresh =
        some ⟨s.segments ++ [(fresh, nextPos hseg.2 s.dir)], s.desiredLen,
          s.dir⟩ ∧
      (s.segments ++ [(fresh, nextPos hseg.2 s.dir)]).length =
        s.segments.length + 1 ∧
      (∀ i, i < s.segments.length →
        (s.segments ++ [(fresh, nextPos hseg.2 s.dir)]).get? i =
          s.segments.get? i) ∧
      fresh ∉ s.segments.map Prod.fst := by
  have hne : s.segments ≠ [] := by
    intro h
    rw [h] at hl1
    simp at hl1
  obtain ⟨hseg, hlast⟩ : ∃ hseg, s.segments.getLast? = some hseg := by
    cases hg : s.segments.getLast? with
    | none =>
      have := List.getLast?_isSome.mpr hne
      rw [hg] at this
      simp at this
    | some v => exact ⟨v, rfl⟩
  have hcond : ¬ usizeOfI32 s.desiredLen ≤ s.segments.length := by
    rw [usizeOfI32_of_nonneg (by omega) (by omega)]
    omega
  refine ⟨hseg, hlast, ?_, by simp, ?_, hfresh⟩
  · unfold moveSnakeTick
    rw [if_neg hcond, hlast]
  · intro i hi
    exact List.get?_append hi

/-- C2 witness: the growth branch evaluated on a concrete one-segment chain
with desired length 10 and fresh entity id 7. -/
theorem moveSnake_growth_witness :
    ∃ hseg,
      exSnake2.segments.getLast? = some hseg ∧
      moveSnakeTick exSnake2 7 =
        some ⟨exSnake2.segments ++ [(7, nextPos hseg.2 exSnake2.dir)],
          exSnake2.desiredLen, exSnake2.dir⟩ ∧
      (exSnake2.segments ++ [(7, nextPos hseg.2 exSnake2.dir)]).length =
        exSnake2.segments.length + 1 ∧
      (∀ i, i < exSnake2.segments.length →
        (exSnake2.segments ++ [(7, nextPos hseg.2 exSnake2.dir)]).get? i =
          exSnake2.segments.get? i) ∧
      7 ∉ exSnake2.segments.map Prod.fst :=
  moveSnake_growth exSnake2 7 (by decide) (by decide) (by decide) (by decide)

/-- C3 counterexample: at desired length 0 (the saturation edge case the spec
calls out) the implemented head index is `(0i32).saturating_sub(1) as usize =
2^64 - 1`, not the 0 that `min(desired, length) - 1` saturating at 0 gives;
on a one-segment chain the head read then goes out of bounds (a panic),
so the last inserted element is not read as the head. -/
theorem head_idx_not_saturated_at_zero :
    head_idx 0 1 = 18446744073709551615 ∧
    specHeadIdx 0 1 = 0 ∧
    headOf? (Snake.mk [(0, Pos.mk 0 0)] 0 Direction.north) = none := by
  decide

/-- C3 amended: for every non-empty chain whose desired length is at least 1
(true in every reachable state), every head read — the detectors via
`head_idx`, and the two `move_snake` branches, whose index expressions are
the two arms of `head_idx` — uses the index `min(desired, length) - 1`;
no saturation is needed once desired ≥ 1.  At desired length 0 the code does
not saturate at 0 (see the counterexample). -/
theorem head_idx_is_min_sub_one (d : Int) (l : Nat)
    (hd1 : 1 ≤ d) (hd2 : d < 2147483648) (hl : 1 ≤ l) :
    head_idx d l = min d.toNat l - 1 ∧
    head_idx d l = specHeadIdx d l ∧
    (d ≤ (l : Int) → usizeOfI32 (i32SatSub1 d) = min d.toNat l - 1) ∧
    ((l : Int) < d → l - 1 = min d.toNat l - 1) := by
  have h1 : usizeOfI32 d = d.toNat :=
    usizeOfI32_of_nonneg (by omega) (by omega)
  have h2 : usizeOfI32 (i32SatSub1 d) = (d - 1).toNat := head_read_idx hd1 hd2
  unfold head_idx specHeadIdx
  rw [h1, h2]
  refine ⟨?_, ?_, fun h => by omega, fun h => by omega⟩
  · split <;> omega
  · split <;> omega

/-- C3 witness: the amended head-index rule at desired length 3 on a chain
of length 2 and again on a chain of length 5. -/
theorem head_idx_is_min_sub_one_witness :
    (head_idx 3 2 = min (Int.toNat 3) 2 - 1 ∧
      head_idx 3 2 = specHeadIdx 3 2 ∧
      ((3 : Int) ≤ (2 : Nat) → usizeOfI32 (i32SatSub1 3) = min (Int.toNat 3) 2 - 1) ∧
      (((2 : Nat) : Int) < 3 → 2 - 1 = min (Int.toNat 3) 2 - 1)) ∧
    (head_idx 3 5 = min (Int.toNat 3) 5 - 1 ∧
      head_idx 3 5 = specHeadIdx 3 5 ∧
      ((3 : Int) ≤ (5 : Nat) → usizeOfI32 (i32SatSub1 3) = min (Int.toNat 3) 5 - 1) ∧
      (((5 : Nat) : Int) < 3 → 5 - 1 = min (Int.toNat 3) 5 - 1)) :=
  ⟨head_idx_is_min_sub_one 3 2 (by decide) (by decide) (by decide),
   head_idx_is_min_sub_one 3 5 (by decide) (by decide) (by decide)⟩

/-- C4 counterexample: for the L-shaped chain `bentSnake` (length 3 = desired
length, heading north) the set of occupied cells after the move is NOT the
old set shifted one cell north: the shifted set contains (0, 10) — the old
tail cell moved north — but after the move no segment occupies (0, 10)
(the tail jumps to the new head cell (10, 20) instead). -/
theorem occupied_cells_do_not_shift :
    moveSnakeTick bentSnake 99 =
      some ⟨[(1, ⟨10, 0⟩), (2, ⟨10, 10⟩), (0, ⟨10, 20⟩)], 3,
        Direction.north⟩ ∧
    Pos.mk 0 10 ∈ bentSnake.segments.map (fun q => nextPos q.2 bentSnake.dir) ∧
    Pos.mk 0 10 ∉
      (([(1, ⟨10, 0⟩), (2, ⟨10, 10⟩), (0, ⟨10, 20⟩)] : List (Nat × Pos)).map
        Prod.snd) := by
  with_unfolding_all decide

/-- C4 amended: on a fixed-length move tick (length ≥ desired ≥ 1) the chain
length is invariant, and the occupied cells change by exactly one cell: the
tail cell (the first of the position sequence) is vacated and one new cell,
one `SEGMENT_SIZE` step in the current direction from the head cell, is
occupied; the other cells are unchanged.  The occupied-cell set is not
translated as a whole (see the counterexample). -/
theorem moveSnake_fixed_occupancy (s : Snake) (fresh : Nat)
    (hd1 : 1 ≤ s.desiredLen) (hd2 : s.desiredLen < 2147483648)
    (hdl : s.desiredLen ≤ (s.segments.length : Int)) :
    ∃ s' hseg,
      moveSnakeTick s fresh = some s' ∧
      s'.segments.length = s.segments.length ∧
      s.segments.get? (s.desiredLen - 1).toNat = some hseg ∧
      s'.segments.map Prod.snd =
        (s.segments.map Prod.snd).tail ++ [nextPos hseg.2 s.dir] := by
  obtain ⟨t, rest, hseg_eq⟩ : ∃ t rest, s.segments = t :: rest := by
    cases hs : s.segments with
    | nil =>
      rw [hs] at hdl
      simp at hdl
      omega
    | cons a l => exact ⟨a, l, rfl⟩
  have hlen : (s.desiredLen - 1).toNat < s.segments.length := by omega
  obtain ⟨hseg, hget⟩ := get?_of_lt hlen
  have hcond : usizeOfI32 s.desiredLen ≤ s.segments.length := by
    rw [usizeOfI32_of_nonneg (by omega) (by omega)]
    omega
  refine ⟨⟨rest ++ [(t.1, nextPos hseg.2 s.dir)], s.desiredLen, s.dir⟩, hseg,
    ?_, by simp [hseg_eq], hget, by simp [hseg_eq]⟩
  unfold moveSnakeTick
  rw [if_pos hcond, head_read_idx hd1 hd2, hget, hseg_eq]

/-- C5: if N ≥ 1 `FoodCollisionEvent`s are queued in a frame, `grow` adds
exactly +10 to every player-controlled desired length, once — the result is
the same for every queue length N ≥ 1, never +10·N.  (The range hypothesis
keeps the i32 addition away from wrap-around; desired lengths start at 10
and grow by 10 per food, so it holds in every reachable state.) -/
theorem grow_plus_ten_once (n : Nat) (hn : 1 ≤ n) (lens : List Int)
    (hrange : ∀ l ∈ lens, -2147483648 ≤ l ∧ l ≤ 2147483637) :
    grow n lens = lens.map (fun l => l + 10) ∧
    ∀ m, 1 ≤ m → grow m lens = grow n lens := by
  have key : ∀ k : Nat, 1 ≤ k → grow k lens = lens.map (fun l => l + 10) := by
    intro k hk
    unfold grow
    rw [if_neg (by omega)]
    apply List.map_congr_left
    intro a ha
    have h := hrange a ha
    unfold wrap32
    omega
  exact ⟨key n hn, fun m hm => (key m hm).trans (key n hn).symm⟩

/-- C5 witness: three queued events grow desired lengths 10 and 20 by one
application of +10, and any other positive queue length gives the same. -/
theorem grow_plus_ten_once_witness :
    grow 3 [10, 20] = ([10, 20] : List Int).map (fun l => l + 10) ∧
    ∀ m, 1 ≤ m → grow m [10, 20] = grow 3 [10, 20] :=
  grow_plus_ten_once 3 (by decide) [10, 20] (by decide)

lemma wallHit_iff_abs (w h : ℚ) (p : Pos) :
    wallHit w h p = true ↔ w / 2 < |p.x| ∨ h / 2 < |p.y| := by
  unfold wallHit
  simp only [Bool.or_eq_true, decide_eq_true_eq]
  constructor
  · rintro (((h1 | h1) | h1) | h1)
    · exact Or.inl (lt_of_lt_of_le h1 (le_abs_self _))
    · exact Or.inl (lt_of_lt_of_le (by linarith) (neg_le_abs _))
    · exact Or.inr (lt_of_lt_of_le h1 (le_abs_self _))
    · exact Or.inr (lt_of_lt_of_le (by linarith) (neg_le_abs _))
  · rintro (h1 | h1)
    · rcases abs_cases p.x with ⟨he, _⟩ | ⟨he, _⟩
      · exact Or.inl (Or.inl (Or.inl (he ▸ h1)))
      · refine Or.inl (Or.inl (Or.inr ?_))
        rw [he] at h1
        linarith
    · rcases abs_cases p.y with ⟨he, _⟩ | ⟨he, _⟩
      · exact Or.inl (Or.inr (he ▸ h1))
      · refine Or.inr ?_
        rw [he] at h1
        linarith

/-- C6: the wall detector sends a game-over signal iff the head lies strictly
outside the viewport half-extents, `|x| > width/2 ∨ |y| > height/2`; the
comparisons are strict, so a head exactly on the boundary `x = width/2`
(with `|y| ≤ height/2`) does NOT trigger. -/
theorem wall_collision_boundary (w h : ℚ) (s : Snake) (p : Pos)
    (hw : 0 ≤ w) (hhd : headOf? s = some p) :
    (wall_collision_check w h s = some true ↔
      w / 2 < |p.x| ∨ h / 2 < |p.y|) ∧
    (p.x = w / 2 → |p.y| ≤ h / 2 →
      wall_collision_check w h s = some false) := by
  have hwc : wall_collision_check w h s = some (wallHit w h p) := by
    unfold wall_collision_check
    rw [hhd]
    rfl
  rw [hwc]
  constructor
  · simp only [Option.some.injEq]
    exact wallHit_iff_abs w h p
  · intro hx hy
    cases hb : wallHit w h p with
    | false => rfl
    | true =>
      exfalso
      rcases (wallHit_iff_abs w h p).mp hb with h1 | h1
      · rw [hx, abs_of_nonneg (show (0 : ℚ) ≤ w / 2 by linarith)] at h1
        exact lt_irrefl _ h1
      · exact absurd hy (not_le.mpr h1)

/-- Chain whose head sits exactly on the right viewport boundary for a
400-wide viewport. -/
def wallSnake : Snake := ⟨[(0, ⟨200, 0⟩)], 1, Direction.north⟩

/-- C6 witness: with viewport 400×300 and the head exactly at x = 200 =
width/2, the detector does not fire. -/
theorem wall_collision_boundary_witness :
    (wall_collision_check 400 300 wallSnake = some true ↔
      (400 : ℚ) / 2 < |(200 : ℚ)| ∨ (300 : ℚ) / 2 < |(0 : ℚ)|) ∧
    ((200 : ℚ) = 400 / 2 → |(0 : ℚ)| ≤ 300 / 2 →
      wall_collision_check 400 300 wallSnake = some false) :=
  wall_collision_boundary 400 300 wallSnake ⟨200, 0⟩ (by norm_num) (by decide)

lemma head_idx_lt {d : Int} {l : Nat} (hd1 : 1 ≤ d) (hd2 : d < 2147483648)
    (hl : 1 ≤ l) : head_idx d l < l := by
  unfold head_idx
  rw [usizeOfI32_of_nonneg (by omega) (by omega), head_read_idx hd1 hd2]
  split <;> omega

/-- C7: the self-collision detector sends a game-over signal iff some segment
at an index other than the head index has exactly the head position; in
particular, for a chain of length 1 it never fires. -/
theorem self_collision_iff (s : Snake)
    (hd1 : 1 ≤ s.desiredLen) (hd2 : s.desiredLen < 2147483648)
    (hl : 1 ≤ s.segments.length) :
    ∃ hseg,
      s.segments.get? (head_idx s.desiredLen s.segments.length) = some hseg ∧
      (self_collision_check s = some true ↔
        ∃ i seg, i ≠ head_idx s.desiredLen s.segments.length ∧
          s.segments.get? i = some seg ∧ seg.2 = hseg.2) ∧
      (s.segments.length = 1 → self_collision_check s = some false) := by
  have hidx : head_idx s.desiredLen s.segments.length < s.segments.length :=
    head_idx_lt hd1 hd2 hl
  obtain ⟨hseg, hget⟩ := get?_of_lt hidx
  refine ⟨hseg, hget, ?_, ?_⟩
  · unfold self_collision_check
    rw [hget]
    simp only [Option.some.injEq]
    rw [List.any_eq_true]
    constructor
    · rintro ⟨⟨i, seg⟩, hmem, hp⟩
      rw [Bool.and_eq_true, decide_eq_true_eq, decide_eq_true_eq] at hp
      exact ⟨i, seg, hp.1, List.mem_enum_iff_get?.mp hmem, hp.2⟩
    · rintro ⟨i, seg, hne, hgi, heq⟩
      refine ⟨(i, seg), List.mem_enum_iff_get?.mpr hgi, ?_⟩
      rw [Bool.and_eq_true, decide_eq_true_eq, decide_eq_true_eq]
      exact ⟨hne, heq⟩
  · intro hlen1
    have h0 : head_idx s.desiredLen s.segments.length = 0 := by omega
    obtain ⟨a, ha⟩ := List.length_eq_one.mp hlen1
    unfold self_collision_check
    rw [hget, h0, ha]
    simp

/-- One-segment chain used as the C7 witness input. -/
def selfSnake : Snake := ⟨[(3, ⟨0, 0⟩)], 10, Direction.north⟩

/-- C7 witness: on a concrete one-segment chain the detector reports no
self collision. -/
theorem self_collision_iff_witness :
    ∃ hseg,
      selfSnake.segments.get?
        (head_idx selfSnake.desiredLen selfSnake.segments.length) =
        some hseg ∧
      (self_collision_check selfSnake = some true ↔
        ∃ i seg, i ≠ head_idx selfSnake.desiredLen selfSnake.segments.length ∧
          selfSnake.segments.get? i = some seg ∧ seg.2 = hseg.2) ∧
      (selfSnake.segments.length = 1 →
        self_collision_check selfSnake = some false) :=
  self_collision_iff selfSnake (by decide) (by decide) (by decide)

/-- C4 witness: the amended occupancy relation evaluated on `bentSnake`. -/
theorem moveSnake_fixed_occupancy_witness :
    ∃ s' hseg,
      moveSnakeTick bentSnake 99 = some s' ∧
      s'.segments.length = bentSnake.segments.length ∧
      bentSnake.segments.get? (bentSnake.desiredLen - 1).toNat = some hseg ∧
      s'.segments.map Prod.snd =
        (bentSnake.segments.map Prod.snd).tail ++
          [nextPos hseg.2 bentSnake.dir] :=
  moveSnake_fixed_occupancy bentSnake 99 (by decide) (by decide) (by decide)

/-- World with a live food item at the origin and a single body segment
elsewhere: the C8 counterexample input. -/
def foodWorld : List WorldEnt :=
  [⟨EntityKind.food, ⟨0, 0⟩⟩, ⟨EntityKind.segment, ⟨10, 10⟩⟩]

/-- C8 counterexample: the sampled cell (0, 0) coincides with NO body
segment, yet the spawner creates no food entity — the tick leaves the world
unchanged, because the occupancy scan also matches the live food item at
(0, 0).  This refutes the "otherwise exactly one food entity is created"
half of the claim. -/
theorem spawn_food_not_segment_only :
    (∀ e ∈ foodWorld, e.kind = EntityKind.segment → e.pos ≠ Pos.mk 0 0) ∧
    spawn_food foodWorld 0 0 = foodWorld := by
  decide

/-- C8 amended: if the sampled cell coincides with the position of any
existing body segment, the spawner creates no food entity that tick and
does not resample (the world is unchanged); otherwise exactly one food
entity is created at the sampled position if and only if no other
positioned entity occupies the cell — on any occupied cell the spawn is
likewise aborted with the world unchanged. -/
theorem spawn_food_occupancy (w : List WorldEnt) (x y : ℚ) :
    ((∃ e ∈ w, e.kind = EntityKind.segment ∧ e.pos = Pos.mk x y) →
      spawn_food w x y = w) ∧
    ((∀ e ∈ w, e.pos ≠ Pos.mk x y) →
      spawn_food w x y = w ++ [⟨EntityKind.food, ⟨x, y⟩⟩]) ∧
    ((∃ e ∈ w, e.pos = Pos.mk x y) → spawn_food w x y = w) := by
  refine ⟨?_, ?_, ?_⟩
  · rintro ⟨e, hmem, _, hpos⟩
    unfold spawn_food
    rw [if_pos]
    rw [List.any_eq_true]
    refine ⟨e, hmem, ?_⟩
    rw [hpos]
    simp
  · intro hall
    unfold spawn_food
    rw [if_neg]
    intro hany
    rw [List.any_eq_true] at hany
    obtain ⟨e, hmem, hp⟩ := hany
    rw [Bool.and_eq_true, decide_eq_true_eq, decide_eq_true_eq] at hp
    exact hall e hmem (Pos.ext hp.1 hp.2)
  · rintro ⟨e, hmem, hpos⟩
    unfold spawn_food
    rw [if_pos]
    rw [List.any_eq_true]
    refine ⟨e, hmem, ?_⟩
    rw [hpos]
    simp

/-- C8 witness: a segment on the sampled cell aborts the spawn; a free cell
gets exactly one food entity; a cell occupied by a non-segment entity (a
live food item) also aborts the spawn. -/
theorem spawn_food_occupancy_witness :
    spawn_food [⟨EntityKind.segment, ⟨0, 0⟩⟩] 0 0 =
      [⟨EntityKind.segment, ⟨0, 0⟩⟩] ∧
    spawn_food [⟨EntityKind.segment, ⟨10, 0⟩⟩] 0 0 =
      [⟨EntityKind.segment, ⟨10, 0⟩⟩, ⟨EntityKind.food, ⟨0, 0⟩⟩] ∧
    spawn_food [⟨EntityKind.food, ⟨20, 30⟩⟩] 20 30 =
      [⟨EntityKind.food, ⟨20, 30⟩⟩] :=
  ⟨(spawn_food_occupancy [⟨EntityKind.segment, ⟨0, 0⟩⟩] 0 0).1
      ⟨⟨EntityKind.segment, ⟨0, 0⟩⟩, by decide, rfl, rfl⟩,
    (spawn_food_occupancy [⟨EntityKind.segment, ⟨10, 0⟩⟩] 0 0).2.1 (by decide),
    (spawn_food_occupancy [⟨EntityKind.food, ⟨20, 30⟩⟩] 20 30).2.2
      ⟨⟨EntityKind.food, ⟨20, 30⟩⟩, by decide, rfl⟩⟩

/-- C9 counterexample: heading North with the opposite key (ArrowDown)
pressed together with ArrowLeft, the direction does NOT keep its previous
value: it becomes West.  Only the change to the exact reverse is rejected,
not every change while the opposite key is down. -/
theorem input_direction_multi_key :
    (ArrowKeys.mk true false false true).down = true ∧
    Direction.north.reverse = Direction.south ∧
    input_direction ⟨true, false, false, true⟩ Direction.north =
      Direction.west := by
  decide

/-- C9 amended: for every pre-state direction and every key combination the
result is never the reverse of the current heading (no 180° turn in one
tick); and when ONLY the key for the opposite direction is pressed, the
direction keeps its previous value. -/
theorem input_direction_no_reversal (keys : ArrowKeys) (dir : Direction) :
    input_direction keys dir ≠ dir.reverse ∧
    input_direction (keyFor dir.reverse) dir = dir := by
  rcases keys with ⟨kl, kr, ku, kd⟩
  revert kl kr ku kd
  cases dir <;> decide

/-- C10: the occupancy scan of `spawn_food` ranges over every positioned
entity: any entity on the sampled cell — food item or camera included, not
only body segments — aborts the spawn; consequently a spawn tick preserves
distinctness of food positions, so two food entities never occupy the same
cell. -/
theorem spawn_food_scans_all_transforms (w : List WorldEnt) (x y : ℚ) :
    ((∃ e ∈ w, e.pos = Pos.mk x y) → spawn_food w x y = w) ∧
    ((foodPositions w).Nodup → (foodPositions (spawn_food w x y)).Nodup) := by
  constructor
  · rintro ⟨e, hmem, hpos⟩
    unfold spawn_food
    rw [if_pos]
    rw [List.any_eq_true]
    refine ⟨e, hmem, ?_⟩
    rw [hpos]
    simp
  · intro hnd
    unfold spawn_food
    split
    · exact hnd
    · rename_i hfalse
      have hnotmem : Pos.mk x y ∉ foodPositions w := by
        intro hmem
        unfold foodPositions at hmem
        rw [List.mem_map] at hmem
        obtain ⟨e, hef, hpe⟩ := hmem
        rw [List.mem_filter] at hef
        apply hfalse
        rw [List.any_eq_true]
        refine ⟨e, hef.1, ?_⟩
        rw [show e.pos = WorldEnt.pos e from rfl, hpe]
        simp
      have hexp : foodPositions (w ++ [⟨EntityKind.food, ⟨x, y⟩⟩]) =
          foodPositions w ++ [Pos.mk x y] := by
        unfold foodPositions
        rw [List.filter_append, List.map_append]
        rfl
      rw [hexp, List.nodup_append]
      refine ⟨hnd, List.nodup_singleton _, ?_⟩
      intro a ha hb
      rw [List.mem_singleton] at hb
      exact hnotmem (hb ▸ ha)

/-- C10 witness: food already at the origin blocks a new food at the origin
(so food positions stay distinct), and a camera at the origin also blocks a
spawn sampled there. -/
theorem spawn_food_scans_all_transforms_witness :
    spawn_food [⟨EntityKind.food, ⟨0, 0⟩⟩] 0 0 =
      [⟨EntityKind.food, ⟨0, 0⟩⟩] ∧
    spawn_food [⟨EntityKind.camera, ⟨0, 0⟩⟩] 0 0 =
      [⟨EntityKind.camera, ⟨0, 0⟩⟩] ∧
    (foodPositions (spawn_food [⟨EntityKind.food, ⟨0, 0⟩⟩] 0 0)).Nodup :=
  ⟨(spawn_food_scans_all_transforms [⟨EntityKind.food, ⟨0, 0⟩⟩] 0 0).1
      ⟨⟨EntityKind.food, ⟨0, 0⟩⟩, by decide, rfl⟩,
    (spawn_food_scans_all_transforms [⟨EntityKind.camera, ⟨0, 0⟩⟩] 0 0).1
      ⟨⟨EntityKind.camera, ⟨0, 0⟩⟩, by decide, rfl⟩,
    (spawn_food_scans_all_transforms [⟨EntityKind.food, ⟨0, 0⟩⟩] 0 0).2
      (by decide)⟩

end BevySnake
